import Mathlib

/-
Shallow embedding of the verdict rule engine (src/src/engine.ts,
src/src/utils.ts, src/src/operator/*.ts, src/src/serializer.ts).

Modelling conventions for the JavaScript runtime:
* numbers are modelled as rationals (no NaN, -0 or infinities as stored
  values; string-to-number coercion results carry an explicit NaN);
* object identity (reference equality) is modelled as structural equality;
* prototype-inherited properties are not modelled for path resolution on
  data objects (only own properties), but the Object.prototype fallback of
  the operator registry lookup is modelled explicitly;
* date-time strings without a trailing Z are parsed as UTC, i.e. the model
  fixes the local timezone to UTC;
* function-valued fields cannot occur in data values, so an object field
  named "compute" or "toJSON" is never callable and calling it raises a
  TypeError, which the model reflects.
-/

namespace Verdict

/-- Model of a JavaScript runtime value as it can appear in contexts,
operands and serialized rule documents. `vSym` is the unique `self`
sentinel symbol exported by utils.ts, `vDate` a Date object holding a
valid epoch-millisecond instant. -/
inductive Value where
  | vUndef : Value
  | vNull : Value
  | vBool : Bool → Value
  | vNum : ℚ → Value
  | vStr : String → Value
  | vSym : Value
  | vDate : Int → Value
  | vArr : List Value → Value
  | vObj : List (String × Value) → Value
deriving Repr

mutual

def decValue (v1 v2 : Value) : Decidable (v1 = v2) := by
  cases v1 <;> cases v2 <;>
  try { apply isFalse ; intro h ; injection h }
  case vUndef.vUndef => exact isTrue rfl
  case vNull.vNull => exact isTrue rfl
  case vSym.vSym => exact isTrue rfl
  case vBool.vBool w1 w2 =>
    exact match decEq w1 w2 with
    | isTrue h => isTrue (by rw [h])
    | isFalse _ => isFalse (by intro h ; injection h ; contradiction)
  case vNum.vNum w1 w2 =>
    exact match decEq w1 w2 with
    | isTrue h => isTrue (by rw [h])
    | isFalse _ => isFalse (by intro h ; injection h ; contradiction)
  case vStr.vStr w1 w2 =>
    exact match decEq w1 w2 with
    | isTrue h => isTrue (by rw [h])
    | isFalse _ => isFalse (by intro h ; injection h ; contradiction)
  case vDate.vDate w1 w2 =>
    exact match decEq w1 w2 with
    | isTrue h => isTrue (by rw [h])
    | isFalse _ => isFalse (by intro h ; injection h ; contradiction)
  case vArr.vArr xs ys =>
    exact match decValueList xs ys with
    | isTrue h => isTrue (by rw [h])
    | isFalse h1 => isFalse (by intro h2 ; injection h2 ; contradiction)
  case vObj.vObj xs ys =>
    exact match decFieldList xs ys with
    | isTrue h => isTrue (by rw [h])
    | isFalse h1 => isFalse (by intro h2 ; injection h2 ; contradiction)

def decValueList (vs1 vs2 : List Value) : Decidable (vs1 = vs2) :=
  match vs1, vs2 with
  | [], [] => isTrue rfl
  | _ :: _, [] => isFalse (by intro h ; exact absurd h (by simp))
  | [], _ :: _ => isFalse (by intro h ; exact absurd h (by simp))
  | v1 :: vs1, v2 :: vs2 =>
    match decValue v1 v2, decValueList vs1 vs2 with
    | isTrue h1, isTrue h2 => isTrue (by rw [h1, h2])
    | isFalse _, _ => isFalse (by intro h ; injection h ; contradiction)
    | _, isFalse _ => isFalse (by intro h ; injection h ; contradiction)

def decFieldList (fs1 fs2 : List (String × Value)) : Decidable (fs1 = fs2) :=
  match fs1, fs2 with
  | [], [] => isTrue rfl
  | _ :: _, [] => isFalse (by intro h ; exact absurd h (by simp))
  | [], _ :: _ => isFalse (by intro h ; exact absurd h (by simp))
  | (k1, v1) :: fs1, (k2, v2) :: fs2 =>
    match decEq k1 k2, decValue v1 v2, decFieldList fs1 fs2 with
    | isTrue h1, isTrue h2, isTrue h3 => isTrue (by rw [h1, h2, h3])
    | isFalse _, _, _ => isFalse (by intro h ; injection h with hp ht ; injection hp ; contradiction)
    | _, isFalse _, _ => isFalse (by intro h ; injection h with hp ht ; injection hp ; contradiction)
    | _, _, isFalse _ => isFalse (by intro h ; injection h ; contradiction)

end

instance : DecidableEq Value := decValue

namespace Value

/-- JavaScript truthiness: false, 0, "", null and undefined are falsy. -/
def truthy : Value → Bool
  | .vUndef => false
  | .vNull => false
  | .vBool b => b
  | .vNum q => decide (q ≠ 0)
  | .vStr s => decide (s ≠ "")
  | .vSym => true
  | .vDate _ => true
  | .vArr _ => true
  | .vObj _ => true

/-- Whether the value is `null` or `undefined`. -/
def isNullish : Value → Bool
  | .vNull => true
  | .vUndef => true
  | _ => false

/-- Whether the value is an array (Array.isArray). -/
def isArr : Value → Bool
  | .vArr _ => true
  | _ => false

/-- Whether the value has type number or string. -/
def isNumOrStr : Value → Bool
  | .vNum _ => true
  | .vStr _ => true
  | _ => false

end Value

open Value

/-
String primitives are re-implemented structurally over the character list
so that every definition evaluates inside the kernel; they model the
corresponding JavaScript string operations.
-/

/-- Whether the string contains the character (String.prototype.includes
with a one-character needle). -/
def hasChar (c : Char) (s : String) : Bool := s.data.contains c

/-- Value of a list of decimal digit characters. -/
def decDigitsVal (cs : List Char) : Nat :=
  cs.foldl (fun acc c => acc * 10 + (c.toNat - 48)) 0

/-- String.prototype.split with a one-character separator. -/
def splitOnChar (sep : Char) (s : String) : List String :=
  let rec go : List Char → List Char → List String
    | [], acc => [String.mk acc.reverse]
    | c :: rest, acc =>
      if c = sep then String.mk acc.reverse :: go rest []
      else go rest (c :: acc)
  go s.data []

/-- Split a dotted path into its segments (path.split with a dot). -/
def splitOnDot (s : String) : List String := splitOnChar '.' s

/-- Code-unit lexicographic string order (the JavaScript < on strings). -/
def charListLT : List Char → List Char → Bool
  | [], [] => false
  | [], _ :: _ => true
  | _ :: _, [] => false
  | a :: as, b :: bs => if a < b then true else if b < a then false else charListLT as bs

/-- Canonical array index: a digit string without superfluous leading
zeros (the keys for which JavaScript's `index in array` holds). -/
def parseArrayIndex (key : String) : Option Nat :=
  if key.data ≠ [] ∧ key.data.all Char.isDigit then
    let n := decDigitsVal key.data
    if toString n = key then some n else none
  else none

/-- Own-property access used by the path resolver: object fields by key,
array elements by canonical numeric index string. -/
def getProp : Value → String → Option Value
  | .vObj fields, key => fields.lookup key
  | .vArr xs, key =>
    match parseArrayIndex key with
    | some n => xs.get? n
    | none => none
  | _, _ => none

/-- One step of the non-wildcard reduce in getValueFromPath: a nullish
accumulator short-circuits to undefined, a missing property yields
undefined. -/
def plainStep (acc : Value) (part : String) : Value :=
  if acc.isNullish then .vUndef
  else
    match getProp acc part with
    | some v => v
    | none => (.vUndef)

/-- Non-wildcard dotted path resolution (the reduce in getValueFromPath). -/
def getValueFromPathPlain (obj : Value) (path : String) : Value :=
  (splitOnDot path).foldl plainStep obj

/-- Turn one per-element wildcard result into its contribution to a
flattened result list (Array.prototype.flat with depth one). -/
def flatOne : Value → List Value
  | .vArr ys => ys
  | v => [v]

/-- Loop body of getValueFromPathWithWildcard over the split path parts.
The source joins the remaining parts with dots and immediately re-splits
them in the recursive call (or resolves them with the plain reduce); since
the parts come from a split they contain no dots, so the join-then-split
round trip is the identity and the tail list is passed on directly: the
joined path is empty exactly when the tail is empty or a single empty
segment, it contains a star exactly when some segment does. -/
def wildcardGo : List String → Value → Value
  | [], cur => cur
  | part :: rest, cur =>
    if cur.isNullish then .vUndef
    else if part = "*" then
      match cur with
      | .vArr xs =>
        if rest = [] ∨ rest = [""] then .vArr xs
        else
          let results := xs.map (fun item =>
            if rest.any (hasChar '*') then wildcardGo rest item
            else rest.foldl plainStep item)
          if results.any Value.isArr then .vArr (results.flatMap flatOne)
          else .vArr (results.filter (fun r => decide (r ≠ .vUndef)))
      | _ => .vUndef
    else
      match getProp cur part with
      | some v => wildcardGo rest v
      | none => (.vUndef)

/-- getValueFromPath from utils.ts: dispatches to the wildcard resolver
when the path contains a `*`, else the plain reduce. -/
def getValueFromPath (obj : Value) (path : String) : Value :=
  if hasChar '*' path then wildcardGo (splitOnDot path) obj
  else getValueFromPathPlain obj path

/-! ### Date-like values (utils.ts isDateLike / normalizeDate) -/

/-- Gregorian leap year. -/
def isLeap (y : Nat) : Bool := y % 4 = 0 && (y % 100 != 0 || y % 400 = 0)

/-- Number of days in a month. -/
def daysInMonth (y m : Nat) : Nat :=
  if m = 2 then (if isLeap y then 29 else 28)
  else if m = 4 || m = 6 || m = 9 || m = 11 then 30
  else 31

/-- Days since the Unix epoch of a civil date (proleptic Gregorian). -/
def daysFromCivil (y m d : Nat) : Int :=
  let a : Nat := (14 - m) / 12
  let y2 : Nat := y + 4800 - a
  let m2 : Nat := m + 12 * a - 3
  let jdn : Int := (d : Int) + (((153 * m2 + 2) / 5 : Nat) : Int) + 365 * (y2 : Int)
    + ((y2 / 4 : Nat) : Int) - ((y2 / 100 : Nat) : Int) + ((y2 / 400 : Nat) : Int) - 32045
  jdn - 2440588

/-- Two decimal digits. -/
def dig2 (a b : Char) : Option Nat :=
  if a.isDigit && b.isDigit then some ((a.toNat - 48) * 10 + (b.toNat - 48)) else none

/-- Three decimal digits. -/
def dig3 (a b c : Char) : Option Nat :=
  if a.isDigit && b.isDigit && c.isDigit then
    some ((a.toNat - 48) * 100 + (b.toNat - 48) * 10 + (c.toNat - 48))
  else none

/-- Four decimal digits. -/
def dig4 (a b c d : Char) : Option Nat :=
  if a.isDigit && b.isDigit && c.isDigit && d.isDigit then
    some ((a.toNat - 48) * 1000 + (b.toNat - 48) * 100 + (c.toNat - 48) * 10 + (d.toNat - 48))
  else none

/-- Epoch-millisecond instant of a calendar field tuple, with the range
checks the JavaScript Date parser applies (hour 24 only at exactly
midnight). -/
def mkUTC (y mo dd hh mi ss ms : Nat) : Option Int :=
  if 1 ≤ mo ∧ mo ≤ 12 ∧ 1 ≤ dd ∧ dd ≤ daysInMonth y mo
      ∧ (hh ≤ 23 ∨ (hh = 24 ∧ mi = 0 ∧ ss = 0 ∧ ms = 0)) ∧ mi ≤ 59 ∧ ss ≤ 59 then
    some (daysFromCivil y mo dd * 86400000
      + (hh : Int) * 3600000 + (mi : Int) * 60000 + (ss : Int) * 1000 + (ms : Int))
  else none

/-- Combined model of the ISO regex test in utils.ts
(YYYY-MM-DD optionally followed by THH:MM:SS, .mmm and Z) together with
Date-parse validity: `some instant` exactly when the regex matches and the
string parses to a valid instant. -/
def parseISO (s : String) : Option Int :=
  match s.data with
  | [a, b, c, d, '-', e, f, '-', g, h] => do
    let y ← dig4 a b c d
    let mo ← dig2 e f
    let dd ← dig2 g h
    mkUTC y mo dd 0 0 0 0
  | a :: b :: c :: d :: '-' :: e :: f :: '-' :: g :: h :: 'T' ::
      h1 :: h2 :: ':' :: m1 :: m2 :: ':' :: s1 :: s2 :: rest => do
    let y ← dig4 a b c d
    let mo ← dig2 e f
    let dd ← dig2 g h
    let hh ← dig2 h1 h2
    let mi ← dig2 m1 m2
    let ss ← dig2 s1 s2
    let ms ← (match rest with
      | [] => some 0
      | ['Z'] => some 0
      | ['.', x, y2, z] => dig3 x y2 z
      | ['.', x, y2, z, 'Z'] => dig3 x y2 z
      | _ => none)
    mkUTC y mo dd hh mi ss ms
  | _ => none

/-- Largest representable JavaScript Date time value (8.64e15 ms). -/
def maxTime : ℚ := 8640000000000000

/-- normalizeDate from utils.ts: an ISO-matching string or a strictly
positive in-range number becomes a Date instant, everything else passes
through unchanged. -/
def normalizeDate (v : Value) : Value :=
  match v with
  | .vDate t => .vDate t
  | .vStr s =>
    match parseISO s with
    | some t => .vDate t
    | none => .vStr s
  | .vNum q => if 0 < q ∧ q ≤ maxTime then .vDate ⌊q⌋ else .vNum q
  | _ => v

/-- isDateLike from utils.ts. -/
def isDateLike (v : Value) : Bool :=
  match v with
  | .vDate _ => true
  | .vStr s => (parseISO s).isSome
  | .vNum q => decide (0 < q ∧ q ≤ maxTime)
  | _ => false

/-- Epoch instant of a date-like value (getTime after normalizeDate). -/
def instantOf (v : Value) : Int :=
  match normalizeDate v with
  | .vDate t => t
  | _ => 0

/-! ### Civil date formatting (Date.prototype.toJSON) -/

/-- Civil date of a day count since the Unix epoch. -/
def civilFromDays (z0 : Int) : Nat × Nat × Nat :=
  let z := z0 + 719468
  let era : Int := Int.fdiv z 146097
  let doe : Nat := (z - era * 146097).toNat
  let yoe : Nat := (doe - doe / 1460 + doe / 36524 - doe / 146096) / 365
  let doy : Nat := doe - (365 * yoe + yoe / 4 - yoe / 100)
  let mp : Nat := (5 * doy + 2) / 153
  let dd : Nat := doy - (153 * mp + 2) / 5 + 1
  let mo : Nat := if mp < 10 then mp + 3 else mp - 9
  let y : Int := (yoe : Int) + era * 400 + (if mo ≤ 2 then 1 else 0)
  (y.toNat, mo, dd)

/-- Zero-padded decimal rendering. -/
def pad (n width : Nat) : String :=
  let s := toString n
  String.mk (List.replicate (width - s.length) '0') ++ s

/-- Date.prototype.toJSON / toISOString: the instant rendered as
YYYY-MM-DDTHH:MM:SS.mmmZ. -/
def formatInstant (t : Int) : String :=
  let days := Int.fdiv t 86400000
  let ms := (t - days * 86400000).toNat
  let c := civilFromDays days
  pad c.1 4 ++ "-" ++ pad c.2.1 2 ++ "-" ++ pad c.2.2 2 ++ "T"
    ++ pad (ms / 3600000) 2 ++ ":" ++ pad (ms % 3600000 / 60000) 2 ++ ":"
    ++ pad (ms % 60000 / 1000) 2 ++ "." ++ pad (ms % 1000) 3 ++ "Z"

/-! ### JavaScript relational comparison on numbers and strings -/

/-- Result of JavaScript ToNumber on a string. -/
inductive JsNum where
  | fin (q : ℚ) : JsNum
  | posInf : JsNum
  | negInf : JsNum
  | nan : JsNum
deriving Repr, DecidableEq

/-- Value of a list of digit characters in a given base, `none` when a
character is out of range. -/
def baseDigitsVal (base : Nat) (cs : List Char) : Option Nat :=
  cs.foldlM (fun acc c =>
    let d :=
      if c.isDigit then some (c.toNat - 48)
      else if 'a' ≤ c ∧ c ≤ 'f' then some (c.toNat - 87)
      else if 'A' ≤ c ∧ c ≤ 'F' then some (c.toNat - 55)
      else none
    match d with
    | some dv => if dv < base then some (acc * base + dv) else none
    | none => none) 0

/-- Decimal literal with optional sign, fraction and exponent
(the StrDecimalLiteral grammar of ToNumber). -/
def parseDecLiteral (cs0 : List Char) : Option ℚ :=
  let (sgn, cs1) :=
    match cs0 with
    | '-' :: t => ((-1 : Int), t)
    | '+' :: t => ((1 : Int), t)
    | t => ((1 : Int), t)
  let intPart := cs1.takeWhile Char.isDigit
  let cs2 := cs1.dropWhile Char.isDigit
  let (fracPart, cs3) :=
    match cs2 with
    | '.' :: t => (t.takeWhile Char.isDigit, t.dropWhile Char.isDigit)
    | t => ([], t)
  if intPart = [] ∧ fracPart = [] then none
  else
    let mant : Int := sgn * (decDigitsVal (intPart ++ fracPart) : Int)
    let mkVal : Int → ℚ := fun e10 =>
      let e := e10 - (fracPart.length : Int)
      if 0 ≤ e then ((mant * 10 ^ e.toNat : Int) : ℚ)
      else mkRat mant (10 ^ (-e).toNat)
    match cs3 with
    | [] => some (mkVal 0)
    | e :: t =>
      if e = 'e' ∨ e = 'E' then
        let (esgn, t2) :=
          match t with
          | '-' :: t3 => ((-1 : Int), t3)
          | '+' :: t3 => ((1 : Int), t3)
          | t3 => ((1 : Int), t3)
        if t2 ≠ [] ∧ t2.all Char.isDigit then
          some (mkVal (esgn * (decDigitsVal t2 : Int)))
        else none
      else none

/-- One of the whitespace characters ToNumber strips. -/
def jsIsWS (c : Char) : Bool := c = ' ' || c = '\t' || c = '\n' || c = '\r'

/-- Whitespace trimming of ToNumber (the common ASCII whitespace). -/
def trimWS (cs : List Char) : List Char :=
  ((cs.dropWhile jsIsWS).reverse.dropWhile jsIsWS).reverse

/-- JavaScript ToNumber on a string: trimmed, empty means 0, signed
infinities, hex/octal/binary integer literals, else a decimal literal;
anything else is NaN. -/
def strToNum (s : String) : JsNum :=
  let t := trimWS s.data
  if t = [] then .fin 0
  else if t = "Infinity".data ∨ t = "+Infinity".data then .posInf
  else if t = "-Infinity".data then .negInf
  else
    match t with
    | '0' :: 'x' :: cs => (match baseDigitsVal 16 cs with
      | some n => if cs = [] then .nan else .fin n
      | none => .nan)
    | '0' :: 'X' :: cs => (match baseDigitsVal 16 cs with
      | some n => if cs = [] then .nan else .fin n
      | none => .nan)
    | '0' :: 'o' :: cs => (match baseDigitsVal 8 cs with
      | some n => if cs = [] then .nan else .fin n
      | none => .nan)
    | '0' :: 'O' :: cs => (match baseDigitsVal 8 cs with
      | some n => if cs = [] then .nan else .fin n
      | none => .nan)
    | '0' :: 'b' :: cs => (match baseDigitsVal 2 cs with
      | some n => if cs = [] then .nan else .fin n
      | none => .nan)
    | '0' :: 'B' :: cs => (match baseDigitsVal 2 cs with
      | some n => if cs = [] then .nan else .fin n
      | none => .nan)
    | cs => (match parseDecLiteral cs with
      | some q => .fin q
      | none => .nan)

/-- ToNumber of a number or string value (only those reach the relational
fallback guard). -/
def toNumV : Value → JsNum
  | .vNum q => .fin q
  | .vStr s => strToNum s
  | _ => .nan

/-- JavaScript abstract relational comparison `a < b` restricted to
number/string inputs: string-string compares by code units, otherwise both
sides are coerced to numbers; `none` models the undefined result on NaN. -/
def jsLess (a b : Value) : Option Bool :=
  match a, b with
  | .vStr x, .vStr y => some (charListLT x.data y.data)
  | _, _ =>
    match toNumV a, toNumV b with
    | .nan, _ => none
    | _, .nan => none
    | .fin x, .fin y => some (decide (x < y))
    | .fin _, .posInf => some true
    | .fin _, .negInf => some false
    | .posInf, _ => some false
    | .negInf, .negInf => some false
    | .negInf, _ => some true

/-- JavaScript `a > b` on number/string values. -/
def jsGT (a b : Value) : Bool := (jsLess b a).getD false

/-- JavaScript `a < b` on number/string values. -/
def jsLT (a b : Value) : Bool := (jsLess a b).getD false

/-- JavaScript `a >= b` on number/string values. -/
def jsGE (a b : Value) : Bool :=
  match jsLess a b with
  | some r => !r
  | none => false

/-- JavaScript `a <= b` on number/string values. -/
def jsLE (a b : Value) : Bool :=
  match jsLess b a with
  | some r => !r
  | none => false

/-- compareValues from utils.ts: when both normalized operands are dates
the instants are compared, otherwise ordering requires the raw operands to
pass the number-or-string guard (mixed pairs go through JavaScript
coercion) and equality is strict equality on the raw operands. -/
def compareValues (left right : Value) (operator : String) : Bool :=
  match normalizeDate left, normalizeDate right with
  | .vDate tl, .vDate tr =>
    if operator = ">" then decide (tl > tr)
    else if operator = "<" then decide (tl < tr)
    else if operator = ">=" then decide (tl ≥ tr)
    else if operator = "<=" then decide (tl ≤ tr)
    else if operator = "===" then decide (tl = tr)
    else if operator = "!==" then decide (tl ≠ tr)
    else false
  | _, _ =>
    if operator = ">" then
      if left.isNumOrStr && right.isNumOrStr then jsGT left right else false
    else if operator = "<" then
      if left.isNumOrStr && right.isNumOrStr then jsLT left right else false
    else if operator = ">=" then
      if left.isNumOrStr && right.isNumOrStr then jsGE left right else false
    else if operator = "<=" then
      if left.isNumOrStr && right.isNumOrStr then jsLE left right else false
    else if operator = "===" then decide (left = right)
    else if operator = "!==" then !decide (left = right)
    else false

/-! ### Operator tree (src/src/operator) -/

/-- Runtime errors: the serializer's unknown-operator error and the
TypeErrors raised when a non-function is called. -/
inductive JsError where
  | unknownOperator (name : String) : JsError
  | typeError (msg : String) : JsError
deriving Repr, DecidableEq

mutual

/-- An operand of an operator node: a plain value or a nested node. -/
inductive Operand where
  | lit : Value → Operand
  | node : Rule → Operand

/-- The operator tree: one constructor per operator class. `inOp`/`notIn`
keep their list argument as a stored operand (the source stores whatever it
is given and re-checks Array.isArray at compute time); quantifiers store
their arrayPath the same way. -/
inductive Rule where
  | eq : Operand → Operand → Rule
  | ne : Operand → Operand → Rule
  | gt : Operand → Operand → Rule
  | gte : Operand → Operand → Rule
  | lt : Operand → Operand → Rule
  | lte : Operand → Operand → Rule
  | and : List Operand → Rule
  | or : List Operand → Rule
  | not : Operand → Rule
  | inOp : Operand → Operand → Rule
  | notIn : Operand → Operand → Rule
  | any : Operand → Operand → Rule
  | all : Operand → Operand → Rule
  | none : Operand → Operand → Rule

end

/-- Whether an evaluation produced `true` (used where the source tests the
result of compute inside a try block). -/
def okTrue : Except JsError Bool → Bool
  | .ok true => true
  | _ => false

/-- Final step of the shared resolveValue helper: an object with a
"compute" member is invoked (raising a TypeError in the model, since data
fields are never functions); everything else is returned as-is. -/
def finishResolve (v : Value) : Except JsError Value :=
  match v with
  | .vObj fs =>
    if (fs.lookup "compute").isSome then throw (.typeError "compute is not a function")
    else pure v
  | _ => pure v

mutual

/-- compute of each operator class. Eq, Gt and Lt resolve the self
sentinel to the context; Gte, Lte, Not, And, Or, In and NotIn lack that
check in the source. Ne is modelled from the spec (see resolveOperand).
Lte compares its resolved operands directly under a number-or-string guard
instead of delegating to compareValues. -/
def evalRule : Rule → Value → Except JsError Bool
  | .eq l r, ctx => do
    let a ← resolveOperand true ctx l
    let b ← resolveOperand true ctx r
    pure (compareValues a b "===")
  | .ne l r, ctx => do
    let a ← resolveOperand true ctx l
    let b ← resolveOperand true ctx r
    pure (compareValues a b "!==")
  | .gt l r, ctx => do
    let a ← resolveOperand true ctx l
    let b ← resolveOperand true ctx r
    pure (compareValues a b ">")
  | .gte l r, ctx => do
    let a ← resolveOperand false ctx l
    let b ← resolveOperand false ctx r
    pure (compareValues a b ">=")
  | .lt l r, ctx => do
    let a ← resolveOperand true ctx l
    let b ← resolveOperand true ctx r
    pure (compareValues a b "<")
  | .lte l r, ctx => do
    let a ← resolveOperand false ctx l
    let b ← resolveOperand false ctx r
    pure (if a.isNumOrStr && b.isNumOrStr then jsLE a b else false)
  | .and args, ctx => evalAnd args ctx
  | .or args, ctx => evalOr args ctx
  | .not o, ctx => do
    let r ← resolveOperand false ctx o
    pure (!r.truthy)
  | .inOp v list, ctx => do
    let rv ← resolveOperand false ctx v
    pure (match list with
      | .lit (.vArr xs) => xs.contains rv
      | _ => false)
  | .notIn v list, ctx => do
    let rv ← resolveOperand false ctx v
    pure (match list with
      | .lit (.vArr xs) => !xs.contains rv
      | _ => true)
  | .any path cond, ctx =>
    if !ctx.truthy then pure false
    else
      match path with
      | .lit (.vStr p) =>
        match getValueFromPath ctx p with
        | .vArr xs =>
          match cond with
          | .node t => pure (xs.any (fun el => okTrue (evalRule t el)))
          | .lit _ => pure false
        | _ => pure false
      | _ => throw (.typeError "path has no string methods")
  | .all path cond, ctx =>
    if !ctx.truthy then pure false
    else
      match path with
      | .lit (.vStr p) =>
        match getValueFromPath ctx p with
        | .vArr xs =>
          match cond with
          | .node t => pure (xs.all (fun el => okTrue (evalRule t el)))
          | .lit _ => pure xs.isEmpty
        | _ => pure false
      | _ => throw (.typeError "path has no string methods")
  | .none path cond, ctx =>
    if !ctx.truthy then pure true
    else
      match path with
      | .lit (.vStr p) =>
        match getValueFromPath ctx p with
        | .vArr xs =>
          match cond with
          | .node t => pure (!xs.any (fun el => okTrue (evalRule t el)))
          | .lit _ => pure true
        | _ => pure true
      | _ => throw (.typeError "path has no string methods")

/-- The shared resolveValue helper: optionally the self sentinel resolves
to the context, a string is looked up as a path when a truthy context is
present (falling back to the literal string), a nested node is evaluated
recursively, and anything else passes through finishResolve. -/
def resolveOperand (hasSelf : Bool) (ctx : Value) : Operand → Except JsError Value
  | .node t => do
    let b ← evalRule t ctx
    pure (.vBool b)
  | .lit v =>
    if hasSelf && v = .vSym then pure ctx
    else
      match v with
      | .vStr s =>
        if ctx.truthy then
          let r := getValueFromPath ctx s
          if r ≠ .vUndef then pure r else finishResolve (.vStr s)
        else finishResolve (.vStr s)
      | _ => finishResolve v

/-- Array.prototype.every over And operands with truthiness and error
propagation. -/
def evalAnd : List Operand → Value → Except JsError Bool
  | [], _ => pure true
  | a :: rest, ctx => do
    let r ← resolveOperand false ctx a
    if r.truthy then evalAnd rest ctx else pure false

/-- Array.prototype.some over Or operands. -/
def evalOr : List Operand → Value → Except JsError Bool
  | [], _ => pure false
  | a :: rest, ctx => do
    let r ← resolveOperand false ctx a
    if r.truthy then pure true else evalOr rest ctx

end

/-- Engine.evaluate: delegates to compute with a default empty context. -/
def evaluate (rule : Rule) (context : Value := .vObj []) : Except JsError Bool :=
  evalRule rule context


/-! ### Serializer (src/src/serializer.ts and the toJSON methods) -/

/-- The reserved string token used when serializing the self symbol. -/
def serializedSelfSymbol : String := "#$self$#"

/-- A RuleDocument value of the shape produced by every toJSON method. -/
def mkDoc (operator : String) (args : List Value) : Value :=
  .vObj [("operator", .vStr operator), ("args", .vArr args)]

mutual

/-- serialize, i.e. the toJSON method of each operator class. -/
def serializeRule : Rule → Value
  | .eq l r => mkDoc "eq" [serializeOperand l, serializeOperand r]
  | .ne l r => mkDoc "ne" [serializeOperand l, serializeOperand r]
  | .gt l r => mkDoc "gt" [serializeOperand l, serializeOperand r]
  | .gte l r => mkDoc "gte" [serializeOperand l, serializeOperand r]
  | .lt l r => mkDoc "lt" [serializeOperand l, serializeOperand r]
  | .lte l r => mkDoc "lte" [serializeOperand l, serializeOperand r]
  | .and args => mkDoc "and" (serializeList args)
  | .or args => mkDoc "or" (serializeList args)
  | .not o => mkDoc "not" [serializeOperand o]
  | .inOp v list => mkDoc "in" [serializeOperand v, serializeRaw list]
  | .notIn v list => mkDoc "notIn" [serializeOperand v, serializeRaw list]
  | .any path cond => mkDoc "any" [serializeRaw path, serializeRaw cond]
  | .all path cond => mkDoc "all" [serializeRaw path, serializeRaw cond]
  | .none path cond => mkDoc "none" [serializeRaw path, serializeRaw cond]

/-- The argument conversion of the toJSON methods: an operand with a
"toJSON" member is converted (nested nodes become documents, Date objects
become their ISO string); everything else is emitted as-is. Note that the
self symbol is NOT an object, so it is emitted raw, not as the reserved
token. -/
def serializeOperand : Operand → Value
  | .node t => serializeRule t
  | .lit (.vDate t) => .vStr (formatInstant t)
  | .lit v => v

/-- Arguments the source emits without the toJSON conversion (the
membership list, the quantifier array path and the quantifier condition,
which is a node for every constructible tree). A node in such a position
is a live object in the source's document; the model represents it by its
document. -/
def serializeRaw : Operand → Value
  | .node t => serializeRule t
  | .lit v => v

/-- Argument conversion mapped over the And/Or operand list. -/
def serializeList : List Operand → List Value
  | [] => []
  | o :: rest => serializeOperand o :: serializeList rest

end

/-- The fourteen keys of the operator registry (serializer.ts
operatorMap). -/
inductive OpKey where
  | kAnd | kEq | kOr | kNot | kNe | kGt | kGte | kLt | kLte
  | kIn | kNotIn | kAny | kAll | kNone
deriving Repr, DecidableEq

/-- Result of the registry lookup operatorMap[op]: a registered
constructor, the inherited Object.prototype.constructor (a truthy
non-operator constructor), another inherited Object.prototype member
(truthy but not constructible), or a falsy miss. -/
inductive OpLookup where
  | found (k : OpKey) : OpLookup
  | protoCtor : OpLookup
  | protoOther : OpLookup
  | missing : OpLookup
deriving Repr, DecidableEq

/-- Own property names of Object.prototype, which a plain-object lookup
falls back to. -/
def objectProtoNames : List String :=
  ["constructor", "hasOwnProperty", "isPrototypeOf", "propertyIsEnumerable",
   "toLocaleString", "toString", "valueOf", "__defineGetter__",
   "__defineSetter__", "__lookupGetter__", "__lookupSetter__", "__proto__"]

/-- The registry lookup operatorMap[jsonRule.operator]. -/
def lookupOperator (op : String) : OpLookup :=
  if op = "and" then .found .kAnd
  else if op = "eq" then .found .kEq
  else if op = "or" then .found .kOr
  else if op = "not" then .found .kNot
  else if op = "ne" then .found .kNe
  else if op = "gt" then .found .kGt
  else if op = "gte" then .found .kGte
  else if op = "lt" then .found .kLt
  else if op = "lte" then .found .kLte
  else if op = "in" then .found .kIn
  else if op = "notIn" then .found .kNotIn
  else if op = "any" then .found .kAny
  else if op = "all" then .found .kAll
  else if op = "none" then .found .kNone
  else if op = "constructor" then .protoCtor
  else if op ∈ objectProtoNames then .protoOther
  else .missing

/-- Result of deserialize: a rule, or (through the inherited constructor
leak) a plain non-rule object. -/
inductive DeserResult where
  | rule (t : Rule) : DeserResult
  | js (v : Value) : DeserResult

/-- Spread-argument access: a missing argument becomes undefined. -/
def getArg (os : List Operand) (i : Nat) : Operand := os.getD i (.lit .vUndef)

/-- new OperatorClass(...resolvedArgs) for each registered constructor. -/
def buildRule (k : OpKey) (os : List Operand) : Rule :=
  match k with
  | .kAnd => .and os
  | .kOr => .or os
  | .kNot => .not (getArg os 0)
  | .kEq => .eq (getArg os 0) (getArg os 1)
  | .kNe => .ne (getArg os 0) (getArg os 1)
  | .kGt => .gt (getArg os 0) (getArg os 1)
  | .kGte => .gte (getArg os 0) (getArg os 1)
  | .kLt => .lt (getArg os 0) (getArg os 1)
  | .kLte => .lte (getArg os 0) (getArg os 1)
  | .kIn => .inOp (getArg os 0) (getArg os 1)
  | .kNotIn => .notIn (getArg os 0) (getArg os 1)
  | .kAny => .any (getArg os 0) (getArg os 1)
  | .kAll => .all (getArg os 0) (getArg os 1)
  | .kNone => .none (getArg os 0) (getArg os 1)

/-- Whether a value is an object carrying an "operator" key (the test for
a nested rule document). -/
def hasOperatorKey : Value → Bool
  | .vObj fs => (fs.lookup "operator").isSome
  | _ => false

mutual

/-- RuleSerializer.deserialize. The registry lookup happens before the
arguments are resolved; an unregistered name throws UnknownOperatorError,
an Object.prototype leak either constructs a plain object (constructor) or
raises a TypeError, and a registered constructor is applied to the
resolved arguments. Documents are matched against the exact
operator-then-args object shape every toJSON method produces. -/
def deserialize : Value → Except JsError DeserResult
  | .vObj [("operator", .vStr op), ("args", .vArr args)] =>
    match lookupOperator op with
    | .missing => throw (.unknownOperator op)
    | .protoOther => do
      let _ ← resolveArgs args
      throw (.typeError "OperatorClass is not a constructor")
    | .protoCtor => do
      let os ← resolveArgs args
      pure (match getArg os 0 with
        | .node t => .rule t
        | .lit .vUndef => .js (.vObj [])
        | .lit .vNull => .js (.vObj [])
        | .lit v => .js v)
    | .found k => do
      let os ← resolveArgs args
      pure (.rule (buildRule k os))
  | _ => throw (.typeError "malformed rule document")

/-- The argument mapping of deserialize: the reserved token becomes the
self symbol, an object with an operator key is deserialized recursively,
everything else passes through. -/
def resolveArgs : List Value → Except JsError (List Operand)
  | [] => pure []
  | a :: rest => do
    let o ←
      (if a = .vStr serializedSelfSymbol then pure (Operand.lit .vSym)
       else if hasOperatorKey a then do
        let r ← deserialize a
        pure (match r with
          | .rule t => Operand.node t
          | .js v => Operand.lit v)
       else pure (Operand.lit a))
    let os ← resolveArgs rest
    pure (o :: os)

end

/-- The per-argument step of resolveArgs, as a standalone function. -/
def resolveArg (a : Value) : Except JsError Operand :=
  if a = .vStr serializedSelfSymbol then pure (Operand.lit .vSym)
  else if hasOperatorKey a then do
    let r ← deserialize a
    pure (match r with
      | .rule t => Operand.node t
      | .js v => Operand.lit v)
  else pure (Operand.lit a)

/-- The fourteen operator names of the registry. -/
def registryKeys : List String :=
  ["and", "eq", "or", "not", "ne", "gt", "gte", "lt", "lte", "in", "notIn",
   "any", "all", "none"]

/-- A child condition whose evaluation always raises: its left operand is
an object with a non-function "compute" member. -/
def badCond : Rule := .eq (.lit (.vObj [("compute", .vNum 1)])) (.lit (.vNum 5))

/-- A context holding a two-element primitive array under "items". -/
def itemsCtx : Value := .vObj [("items", .vArr [.vNum 1, .vNum 2])]

/-- A context whose "user.roles" is an empty array. -/
def emptyRolesCtx : Value := .vObj [("user", .vObj [("roles", .vArr [])])]

/-- The admin-role membership condition of the documentation examples. -/
def adminCond : Rule := .eq (.lit (.vStr "name")) (.lit (.vStr "admin"))

/-- A sample constructible tree exercising nesting, the self sentinel and
an array quantifier. -/
def sampleRule : Rule :=
  .and [.node (.eq (.lit (.vStr "user.status")) (.lit (.vStr "active"))),
        .node (.gt (.lit (.vStr "user.age")) (.lit (.vNum 18))),
        .node (.any (.lit (.vStr "user.roles"))
          (.node (.eq (.lit .vSym) (.lit (.vStr "admin")))))]

/-- A plain operand value whose serialization is the identity and whose
deserialization passes it through unchanged: not a Date object (whose
toJSON turns it into an ISO string), not the reserved token (which
deserializes to the sentinel), and not an object carrying an "operator"
key (treated as a nested document) or a "toJSON" key (which serialization
would try to call). -/
def wireSafeValue : Value → Bool
  | .vDate _ => false
  | .vStr s => decide (s ≠ serializedSelfSymbol)
  | .vObj fs => (fs.lookup "operator").isNone && (fs.lookup "toJSON").isNone
  | _ => true

mutual

/-- Operand with wire-safe literals and wire-safe nested nodes. -/
def wireSafeOperand : Operand → Bool
  | .lit v => wireSafeValue v
  | .node t => wireSafeRule t

/-- Wire safety across an operand list. -/
def wireSafeList : List Operand → Bool
  | [] => true
  | o :: rest => wireSafeOperand o && wireSafeList rest

/-- A constructible tree whose serialized document deserializes back to
the same tree: operands wire-safe, membership lists literal arrays,
quantifier paths non-token strings and quantifier conditions nodes. -/
def wireSafeRule : Rule → Bool
  | .eq l r => wireSafeOperand l && wireSafeOperand r
  | .ne l r => wireSafeOperand l && wireSafeOperand r
  | .gt l r => wireSafeOperand l && wireSafeOperand r
  | .gte l r => wireSafeOperand l && wireSafeOperand r
  | .lt l r => wireSafeOperand l && wireSafeOperand r
  | .lte l r => wireSafeOperand l && wireSafeOperand r
  | .and args => wireSafeList args
  | .or args => wireSafeList args
  | .not o => wireSafeOperand o
  | .inOp v list =>
    wireSafeOperand v &&
      (match list with
       | .lit (.vArr _) => true
       | _ => false)
  | .notIn v list =>
    wireSafeOperand v &&
      (match list with
       | .lit (.vArr _) => true
       | _ => false)
  | .any path cond =>
    (match path with
     | .lit (.vStr s) => decide (s ≠ serializedSelfSymbol)
     | _ => false) &&
      (match cond with
       | .node c => wireSafeRule c
       | _ => false)
  | .all path cond =>
    (match path with
     | .lit (.vStr s) => decide (s ≠ serializedSelfSymbol)
     | _ => false) &&
      (match cond with
       | .node c => wireSafeRule c
       | _ => false)
  | .none path cond =>
    (match path with
     | .lit (.vStr s) => decide (s ≠ serializedSelfSymbol)
     | _ => false) &&
      (match cond with
       | .node c => wireSafeRule c
       | _ => false)

end

/-! Unfolding equations for the evaluator, stated once so later proofs can
rewrite with them. -/

set_option maxHeartbeats 4000000 in
/-- Unfolding of compute on a Gt node. -/
theorem evalRule_gt_def (l r : Operand) (ctx : Value) :
    evalRule (.gt l r) ctx
      = (do
          let a ← resolveOperand true ctx l
          let b ← resolveOperand true ctx r
          pure (compareValues a b ">")) := by
  rw [evalRule]

set_option maxHeartbeats 4000000 in
/-- Unfolding of the shared resolveValue helper on a plain value. -/
theorem resolveOperand_lit_def (hs : Bool) (ctx : Value) (v : Value) :
    resolveOperand hs ctx (.lit v)
      = if hs && v = .vSym then pure ctx
        else
          match v with
          | .vStr s =>
            if ctx.truthy then
              let r := getValueFromPath ctx s
              if r ≠ .vUndef then pure r else finishResolve (.vStr s)
            else finishResolve (.vStr s)
          | _ => finishResolve v := by
  cases v <;> rw [resolveOperand] <;> try exact fun s h => nomatch h

set_option maxHeartbeats 4000000 in
/-- Unfolding of compute on an Any node with string path and node
condition. -/
theorem evalRule_any_def (p : String) (c : Rule) (ctx : Value) :
    evalRule (.any (.lit (.vStr p)) (.node c)) ctx
      = if !ctx.truthy then pure false
        else
          match getValueFromPath ctx p with
          | .vArr xs => pure (xs.any fun el => okTrue (evalRule c el))
          | _ => pure false := by
  rw [evalRule]

set_option maxHeartbeats 4000000 in
/-- Unfolding of compute on an All node with string path and node
condition. -/
theorem evalRule_all_def (p : String) (c : Rule) (ctx : Value) :
    evalRule (.all (.lit (.vStr p)) (.node c)) ctx
      = if !ctx.truthy then pure false
        else
          match getValueFromPath ctx p with
          | .vArr xs => pure (xs.all fun el => okTrue (evalRule c el))
          | _ => pure false := by
  rw [evalRule]

set_option maxHeartbeats 4000000 in
/-- Unfolding of compute on a None node with string path and node
condition. -/
theorem evalRule_none_def (p : String) (c : Rule) (ctx : Value) :
    evalRule (.none (.lit (.vStr p)) (.node c)) ctx
      = if !ctx.truthy then pure true
        else
          match getValueFromPath ctx p with
          | .vArr xs => pure (!xs.any fun el => okTrue (evalRule c el))
          | _ => pure true := by
  rw [evalRule]


/-! ## Theorems -/

/-- Claim C3: the claim states that serialization replaces an in-memory
self-sentinel operand by the reserved token. The code does not: toJSON
only converts object operands carrying a toJSON member, and the sentinel
is a symbol, so the raw sentinel is emitted into the document args
unchanged and the reserved token never appears. Evaluated at the failing
input eq(self, "admin"). -/
theorem c3_serialize_keeps_raw_sentinel :
    serializeRule (.eq (.lit .vSym) (.lit (.vStr "admin")))
      = mkDoc "eq" [.vSym, .vStr "admin"]
    ∧ Value.vSym ≠ .vStr serializedSelfSymbol
    ∧ mkDoc "eq" [.vSym, .vStr "admin"]
        ≠ mkDoc "eq" [.vStr serializedSelfSymbol, .vStr "admin"] :=
  ⟨rfl, by decide, by decide⟩

/-- Claim C2: serialize(deserialize(doc)) is claimed structurally equal to
doc for every well-formed document, including args equal to the reserved
token. Deserializing the token yields the sentinel symbol, but
serializing maps the symbol to itself rather than back to the token, so
the round trip is not the identity on the failing input
{operator:"eq", args:["#$self$#", "admin"]}. -/
theorem c2_token_roundtrip_not_identity :
    deserialize (mkDoc "eq" [.vStr serializedSelfSymbol, .vStr "admin"])
      = .ok (.rule (.eq (.lit .vSym) (.lit (.vStr "admin"))))
    ∧ serializeRule (.eq (.lit .vSym) (.lit (.vStr "admin")))
        ≠ mkDoc "eq" [.vStr serializedSelfSymbol, .vStr "admin"] :=
  ⟨rfl, by decide⟩

/-- Claim C4: the claim states every comparison node, in particular LTE,
delegates to the value comparator, so date-like operands compare as
instants. Lte.compute instead compares the raw resolved operands under a
number-or-string guard with no date normalization: at the failing input
lte(new Date("2023-01-15"), "2023-01-16") both operands are date-like with
instant(left) ≤ instant(right), yet compute returns false, while the
sibling GTE on the mirrored operands normalizes and returns true. -/
theorem c4_lte_skips_date_normalization :
    evaluate (.lte (.lit (.vDate 1673740800000)) (.lit (.vStr "2023-01-16")))
      = .ok false
    ∧ isDateLike (.vDate 1673740800000) = true
    ∧ isDateLike (.vStr "2023-01-16") = true
    ∧ instantOf (.vDate 1673740800000) ≤ instantOf (.vStr "2023-01-16")
    ∧ evaluate (.gte (.lit (.vStr "2023-01-16")) (.lit (.vDate 1673740800000)))
        = .ok true :=
  ⟨rfl, rfl, rfl, by decide, rfl⟩

/-- Claim C10: an array-quantifier node evaluated with a falsy context
(undefined, null, false, 0 or the empty string) returns false for ANY and
ALL and true for NONE, before any path resolution. -/
theorem c10_falsy_context (p : String) (c : Rule) (ctx : Value)
    (h : ctx = .vUndef ∨ ctx = .vNull ∨ ctx = .vBool false ∨ ctx = .vNum 0
      ∨ ctx = .vStr "") :
    evalRule (.any (.lit (.vStr p)) (.node c)) ctx = .ok false
    ∧ evalRule (.all (.lit (.vStr p)) (.node c)) ctx = .ok false
    ∧ evalRule (.none (.lit (.vStr p)) (.node c)) ctx = .ok true := by
  rcases h with h | h | h | h | h <;> subst h <;>
    exact ⟨by rw [evalRule_any_def] ; rfl, by rw [evalRule_all_def] ; rfl,
      by rw [evalRule_none_def] ; rfl⟩

/-- Witness for C10 at a concrete quantifier and the falsy context 0. -/
theorem c10_falsy_context_witness :
    evalRule (.any (.lit (.vStr "user.roles"))
        (.node (.eq (.lit (.vStr "name")) (.lit (.vStr "admin"))))) (.vNum 0)
      = .ok false
    ∧ evalRule (.all (.lit (.vStr "user.roles"))
        (.node (.eq (.lit (.vStr "name")) (.lit (.vStr "admin"))))) (.vNum 0)
      = .ok false
    ∧ evalRule (.none (.lit (.vStr "user.roles"))
        (.node (.eq (.lit (.vStr "name")) (.lit (.vStr "admin"))))) (.vNum 0)
      = .ok true :=
  c10_falsy_context "user.roles" (.eq (.lit (.vStr "name")) (.lit (.vStr "admin")))
    (.vNum 0) (by decide)

/-- Claim C9: wildcard resolution applies the remaining path to every
element and flattens nested wildcard results; on the documented context
"users.*.roles.*.name" yields exactly ["a","b","c"]; and when no
per-element result is an array, the result is the per-element results with
undefined entries dropped. -/
theorem c9_wildcard_flattening :
    getValueFromPath
      (.vObj [("users", .vArr
        [.vObj [("roles", .vArr [.vObj [("name", .vStr "a")]])],
         .vObj [("roles", .vArr [.vObj [("name", .vStr "b")],
                                 .vObj [("name", .vStr "c")]])]])])
      "users.*.roles.*.name"
      = .vArr [.vStr "a", .vStr "b", .vStr "c"]
    ∧ ∀ (xs : List Value) (rest : List String),
        rest ≠ [] → rest ≠ [""] → rest.any (hasChar '*') = false →
        (xs.map (fun item => rest.foldl plainStep item)).any Value.isArr = false →
        wildcardGo ("*" :: rest) (.vArr xs)
          = .vArr ((xs.map (fun item => rest.foldl plainStep item)).filter
              (fun r => decide (r ≠ .vUndef))) := by
  refine ⟨rfl, ?_⟩
  intro xs rest h1 h2 h3 h4
  simp only [wildcardGo, isNullish, h3, Bool.false_eq_true, if_false, h4]
  simp [h1, h2]

/-- Witness for the general clause of C9: a single-wildcard path over a
concrete array where no per-element result is an array drops the
undefined entry. -/
theorem c9_wildcard_flattening_witness :
    wildcardGo ["*", "name"]
        (.vArr [.vObj [("name", .vStr "a")], .vObj [("x", .vNum 1)]])
      = .vArr [.vStr "a"] :=
  (c9_wildcard_flattening.2
    [.vObj [("name", .vStr "a")], .vObj [("x", .vNum 1)]] ["name"]
    (by decide) (by decide) (by decide) (by decide)).trans rfl

/-- Computation rule: pure in the Except monad is ok. -/
theorem pureOk {A : Type} (a : A) : (pure a : Except JsError A) = Except.ok a := rfl

/-- Computation rule: bind on an ok value applies the continuation. -/
theorem bindOk {A B : Type} (a : A) (f : A → Except JsError B) :
    (Except.ok a >>= f : Except JsError B) = f a := rfl

/-- Claim C6 counterexample: the claim states all(path, cond) on an absent
array returns true, but on a context without the path the code returns
false. -/
theorem c6_counterexample :
    evaluate (.all (.lit (.vStr "missing")) (.node adminCond)) = .ok false
    ∧ (Except.ok false : Except JsError Bool) ≠ .ok true :=
  ⟨rfl, by simp⟩

/-- Claim C6 amended: on an empty array ALL returns true, ANY false and
NONE true; but on an absent or non-array path ALL returns false (not true
as claimed), ANY false and NONE true. -/
theorem c6_amended (p : String) (c : Rule) (ctx : Value) (h : ctx.truthy = true) :
    (getValueFromPath ctx p = .vArr [] →
      evalRule (.all (.lit (.vStr p)) (.node c)) ctx = .ok true
      ∧ evalRule (.any (.lit (.vStr p)) (.node c)) ctx = .ok false
      ∧ evalRule (.none (.lit (.vStr p)) (.node c)) ctx = .ok true)
    ∧ ((getValueFromPath ctx p).isArr = false →
      evalRule (.all (.lit (.vStr p)) (.node c)) ctx = .ok false
      ∧ evalRule (.any (.lit (.vStr p)) (.node c)) ctx = .ok false
      ∧ evalRule (.none (.lit (.vStr p)) (.node c)) ctx = .ok true) := by
  constructor
  · intro harr
    refine ⟨?_, ?_, ?_⟩ <;>
      simp [evalRule_all_def, evalRule_any_def, evalRule_none_def, h, harr, pureOk]
  · intro hnarr
    rcases hv : getValueFromPath ctx p with _ | _ | _ | _ | _ | _ | _ | xs | _ <;>
      simp_all [evalRule_all_def, evalRule_any_def, evalRule_none_def, Value.isArr,
        pureOk]

/-- Witness for C6 amended at the documented scenario context: empty
roles array, and an absent path. -/
theorem c6_amended_witness :
    Value.truthy emptyRolesCtx = true
    ∧ evalRule (.all (.lit (.vStr "user.roles")) (.node adminCond)) emptyRolesCtx
        = .ok true
    ∧ evalRule (.none (.lit (.vStr "user.roles")) (.node adminCond)) emptyRolesCtx
        = .ok true
    ∧ evalRule (.all (.lit (.vStr "absent")) (.node adminCond)) emptyRolesCtx
        = .ok false :=
  ⟨rfl,
   ((c6_amended "user.roles" adminCond emptyRolesCtx rfl).1 rfl).1,
   ((c6_amended "user.roles" adminCond emptyRolesCtx rfl).1 rfl).2.2,
   ((c6_amended "absent" adminCond emptyRolesCtx rfl).2 rfl).1⟩

/-- Claim C8: over a resolved array, an exception inside the child
condition never escapes compute: each quantifier returns ok of a pure
quantification in which an erroring element counts as not satisfying the
condition (okTrue maps errors to false). -/
theorem c8_child_errors_absorbed (p : String) (c : Rule) (ctx : Value)
    (xs : List Value) (hctx : ctx.truthy = true)
    (harr : getValueFromPath ctx p = .vArr xs) :
    evalRule (.any (.lit (.vStr p)) (.node c)) ctx
      = .ok (xs.any fun el => okTrue (evalRule c el))
    ∧ evalRule (.all (.lit (.vStr p)) (.node c)) ctx
      = .ok (xs.all fun el => okTrue (evalRule c el))
    ∧ evalRule (.none (.lit (.vStr p)) (.node c)) ctx
      = .ok (!xs.any fun el => okTrue (evalRule c el)) := by
  refine ⟨?_, ?_, ?_⟩ <;>
    simp [evalRule_any_def, evalRule_all_def, evalRule_none_def, hctx, harr, pureOk]

/-- Witness for C8: a child condition that raises on every element (its
operand calls compute on a non-function); the quantifiers still return a
boolean treating every element as unsatisfied. -/
theorem c8_child_errors_absorbed_witness :
    evalRule badCond (.vNum 1) = .error (.typeError "compute is not a function")
    ∧ evalRule (.any (.lit (.vStr "items")) (.node badCond)) itemsCtx = .ok false
    ∧ evalRule (.all (.lit (.vStr "items")) (.node badCond)) itemsCtx = .ok false
    ∧ evalRule (.none (.lit (.vStr "items")) (.node badCond)) itemsCtx = .ok true :=
  ⟨rfl,
   ((c8_child_errors_absorbed "items" badCond itemsCtx [.vNum 1, .vNum 2]
      rfl rfl).1).trans rfl,
   ((c8_child_errors_absorbed "items" badCond itemsCtx [.vNum 1, .vNum 2]
      rfl rfl).2.1).trans rfl,
   ((c8_child_errors_absorbed "items" badCond itemsCtx [.vNum 1, .vNum 2]
      rfl rfl).2.2).trans rfl⟩


/-- A registry key resolves to a registered constructor. -/
theorem lookup_found_of_mem (op : String) (h : op ∈ registryKeys) :
    ∃ k, lookupOperator op = .found k := by
  unfold registryKeys at h
  simp only [List.mem_cons, List.not_mem_nil, or_false] at h
  rcases h with h | h | h | h | h | h | h | h | h | h | h | h | h | h <;>
    subst h <;> exact ⟨_, rfl⟩

/-- A name outside both the registry and Object.prototype misses. -/
theorem lookup_missing_of (op : String) (h : op ∉ registryKeys)
    (h2 : op ∉ objectProtoNames) : lookupOperator op = .missing := by
  have h2c : op ≠ "constructor" := fun hc => h2 (by rw [hc] ; decide)
  unfold registryKeys at h
  simp only [List.mem_cons, List.not_mem_nil, or_false, not_or] at h
  obtain ⟨a1, a2, a3, a4, a5, a6, a7, a8, a9, a10, a11, a12, a13, a14⟩ := h
  unfold lookupOperator
  rw [if_neg a1, if_neg a2, if_neg a3, if_neg a4, if_neg a5, if_neg a6,
    if_neg a7, if_neg a8, if_neg a9, if_neg a10, if_neg a11, if_neg a12,
    if_neg a13, if_neg a14, if_neg h2c, if_neg h2]

/-- An Object.prototype name that is not a registry key leaks through the
lookup as a truthy non-operator. -/
theorem lookup_proto_of (op : String) (h : op ∉ registryKeys)
    (hp : op ∈ objectProtoNames) :
    lookupOperator op = .protoCtor ∨ lookupOperator op = .protoOther := by
  unfold registryKeys at h
  simp only [List.mem_cons, List.not_mem_nil, or_false, not_or] at h
  obtain ⟨a1, a2, a3, a4, a5, a6, a7, a8, a9, a10, a11, a12, a13, a14⟩ := h
  unfold lookupOperator
  rw [if_neg a1, if_neg a2, if_neg a3, if_neg a4, if_neg a5, if_neg a6,
    if_neg a7, if_neg a8, if_neg a9, if_neg a10, if_neg a11, if_neg a12,
    if_neg a13, if_neg a14]
  by_cases hc : op = "constructor"
  · rw [if_pos hc] ; exact Or.inl rfl
  · rw [if_neg hc, if_pos hp] ; exact Or.inr rfl

/-- Case analysis of the registry lookup against the key and prototype
name lists. -/
theorem lookupOperator_spec (op : String) :
    (lookupOperator op = .missing ↔ op ∉ registryKeys ∧ op ∉ objectProtoNames)
    ∧ (op ∈ registryKeys → ∃ k, lookupOperator op = .found k)
    ∧ (∀ k, lookupOperator op = .found k → op ∈ registryKeys)
    ∧ (lookupOperator op = .protoCtor → op ∈ objectProtoNames)
    ∧ (lookupOperator op = .protoOther → op ∈ objectProtoNames) := by
  refine ⟨⟨fun hm => ⟨fun hmem => ?_, fun hp => ?_⟩,
    fun h => lookup_missing_of op h.1 h.2⟩,
    lookup_found_of_mem op, fun k hk => ?_, fun hk => ?_, fun hk => ?_⟩
  · obtain ⟨k, hf⟩ := lookup_found_of_mem op hmem
    rw [hm] at hf ; exact nomatch hf
  · by_cases hmem : op ∈ registryKeys
    · obtain ⟨k, hf⟩ := lookup_found_of_mem op hmem
      rw [hm] at hf ; exact nomatch hf
    · rcases lookup_proto_of op hmem hp with hh | hh <;> rw [hm] at hh <;>
        exact nomatch hh
  · by_cases hmem : op ∈ registryKeys
    · exact hmem
    · exfalso
      by_cases hp : op ∈ objectProtoNames
      · rcases lookup_proto_of op hmem hp with hh | hh <;> rw [hk] at hh <;>
          exact nomatch hh
      · rw [lookup_missing_of op hmem hp] at hk ; exact nomatch hk
  · by_cases hp : op ∈ objectProtoNames
    · exact hp
    · exfalso
      by_cases hmem : op ∈ registryKeys
      · obtain ⟨k, hf⟩ := lookup_found_of_mem op hmem
        rw [hk] at hf ; exact nomatch hf
      · rw [lookup_missing_of op hmem hp] at hk ; exact nomatch hk
  · by_cases hp : op ∈ objectProtoNames
    · exact hp
    · exfalso
      by_cases hmem : op ∈ registryKeys
      · obtain ⟨k, hf⟩ := lookup_found_of_mem op hmem
        rw [hk] at hf ; exact nomatch hf
      · rw [lookup_missing_of op hmem hp] at hk ; exact nomatch hk

/-- Evaluation of deserialize on a flat document by registry lookup
result. -/
theorem deserialize_flat (op : String) :
    deserialize (mkDoc op []) =
      (match lookupOperator op with
       | .missing => .error (.unknownOperator op)
       | .protoOther => .error (.typeError "OperatorClass is not a constructor")
       | .protoCtor => .ok (.js (.vObj []))
       | .found k => .ok (.rule (buildRule k []))) := by
  rw [mkDoc, deserialize]
  cases lookupOperator op <;> rfl

/-- Claim C7 counterexample: "constructor" is not a registry key, yet
deserializing {operator:"constructor", args:[]} does not raise: the
object-literal registry inherits Object.prototype.constructor, so the
lookup is truthy and a plain object is constructed. -/
theorem c7_counterexample :
    deserialize (mkDoc "constructor" []) = .ok (.js (.vObj []))
    ∧ "constructor" ∉ registryKeys
    ∧ ∀ e : JsError, deserialize (mkDoc "constructor" []) ≠ .error e :=
  ⟨rfl, by decide, fun e h => by
    rw [show deserialize (mkDoc "constructor" []) = .ok (.js (.vObj []))
      from rfl] at h
    exact nomatch h⟩

/-- Claim C7 amended: deserializing {operator:s, args:[]} raises
UnknownOperatorError exactly when s is neither one of the fourteen
registry keys nor an Object.prototype property name; for registry keys
the constructor lookup succeeds and a rule is built. -/
theorem c7_amended (op : String) :
    (deserialize (mkDoc op []) = .error (.unknownOperator op)
      ↔ op ∉ registryKeys ∧ op ∉ objectProtoNames)
    ∧ (op ∈ registryKeys → ∃ t, deserialize (mkDoc op []) = .ok (.rule t)) := by
  refine ⟨?_, ?_⟩
  · rw [deserialize_flat]
    cases hk : lookupOperator op
    case found k =>
      have hmem := (lookupOperator_spec op).2.2.1 k hk
      simp [hmem]
    case protoCtor =>
      have hmem := (lookupOperator_spec op).2.2.2.1 hk
      simp [hmem]
    case protoOther =>
      have hmem := (lookupOperator_spec op).2.2.2.2 hk
      simp [hmem]
    case missing =>
      exact iff_of_true rfl ((lookupOperator_spec op).1.mp hk)
  · intro hmem
    obtain ⟨k, hk⟩ := (lookupOperator_spec op).2.1 hmem
    exact ⟨buildRule k [], by rw [deserialize_flat, hk]⟩

/-- Witness for C7 amended: the documented scenario "bogus" raises
UnknownOperatorError, and the registry key "eq" constructs a rule. -/
theorem c7_amended_witness :
    deserialize (mkDoc "bogus" []) = .error (.unknownOperator "bogus")
    ∧ ∃ t, deserialize (mkDoc "eq" []) = .ok (.rule t) :=
  ⟨(c7_amended "bogus").1.mpr ⟨by decide, by decide⟩,
   (c7_amended "eq").2 (by decide)⟩


/-- The split helper never returns an empty list. -/
theorem splitOnChar_go_ne_nil (sep : Char) :
    ∀ cs acc, splitOnChar.go sep cs acc ≠ [] := by
  intro cs
  induction cs with
  | nil => intro acc ; simp [splitOnChar.go]
  | cons c rest ih =>
    intro acc
    rw [splitOnChar.go]
    split_ifs <;> simp [ih]

/-- The plain path reduce stays undefined once undefined. -/
theorem foldl_plainStep_undef :
    ∀ parts : List String, parts.foldl plainStep .vUndef = .vUndef := by
  intro parts
  induction parts with
  | nil => rfl
  | cons p rest ih => simpa [plainStep, isNullish] using ih

/-- Any path resolves to undefined against the empty context object. -/
theorem getValueFromPath_emptyObj (s : String) :
    getValueFromPath (.vObj []) s = .vUndef := by
  obtain ⟨p, rest, hsp⟩ : ∃ p rest, splitOnDot s = p :: rest := by
    cases hs : splitOnDot s with
    | nil => exact absurd hs (splitOnChar_go_ne_nil '.' s.data [])
    | cons p rest => exact ⟨p, rest, rfl⟩
  unfold getValueFromPath
  split_ifs with hstar
  · rw [hsp, wildcardGo]
    all_goals try exact fun a h => nomatch h
    split_ifs <;> rfl
  · rw [getValueFromPathPlain, hsp, List.foldl_cons]
    have hstep : plainStep (.vObj []) p = .vUndef := rfl
    rw [hstep, foldl_plainStep_undef]

/-- normalizeDate yields a date instant exactly for date-like values. -/
theorem normalizeDate_isDate (v : Value) :
    (∃ t, normalizeDate v = .vDate t) ↔ isDateLike v = true := by
  cases v with
  | vStr s => cases hp : parseISO s <;> simp [normalizeDate, isDateLike, hp]
  | vNum q =>
    by_cases hq : (0 : ℚ) < q ∧ q ≤ maxTime <;>
      simp [normalizeDate, isDateLike, hq]
  | vDate t => simp [normalizeDate, isDateLike]
  | vUndef => simp [normalizeDate, isDateLike]
  | vNull => simp [normalizeDate, isDateLike]
  | vBool b => simp [normalizeDate, isDateLike]
  | vSym => simp [normalizeDate, isDateLike]
  | vArr xs => simp [normalizeDate, isDateLike]
  | vObj fs => simp [normalizeDate, isDateLike]

/-- Claim C5 counterexample: gt(5, "3") with the non-date-like string "3"
returns true, not false: the number-or-string guard admits the mixed pair
and JavaScript coerces "3" to 3. -/
theorem c5_counterexample :
    evaluate (.gt (.lit (.vNum 5)) (.lit (.vStr "3"))) = .ok true
    ∧ isDateLike (.vStr "3") = false
    ∧ (Except.ok true : Except JsError Bool) ≠ .ok false :=
  ⟨rfl, rfl, by simp⟩

/-- Claim C5 amended: when the operands are not both date-like, an
ordering comparison yields false whenever either raw operand is neither a
number nor a string; a mixed number/string pair however is not rejected
but compared after numeric coercion of the string, so gt(n,s) and gt(s,n)
are false for every non-date-like string s that does not coerce to a
number (NaN), while numeric strings compare numerically: gt(5,"3") is
true. -/
theorem c5_amended :
    (∀ (a b : Value) (op : String),
      ¬(isDateLike a = true ∧ isDateLike b = true) →
      (a.isNumOrStr = false ∨ b.isNumOrStr = false) →
      (op = ">" ∨ op = "<" ∨ op = ">=" ∨ op = "<=") →
      compareValues a b op = false)
    ∧ (∀ (n : ℚ) (s : String), isDateLike (.vStr s) = false →
        strToNum s = .nan →
        evaluate (.gt (.lit (.vNum n)) (.lit (.vStr s))) = .ok false
        ∧ evaluate (.gt (.lit (.vStr s)) (.lit (.vNum n))) = .ok false)
    ∧ evaluate (.gt (.lit (.vNum 5)) (.lit (.vStr "3"))) = .ok true := by
  refine ⟨?_, ?_, rfl⟩
  · intro a b op hnd hns hop
    have hguard : (a.isNumOrStr && b.isNumOrStr) = false := by
      rcases hns with h | h <;> simp [h]
    rcases hna : normalizeDate a with _ | _ | _ | _ | _ | _ | ta | _ | _ <;>
      rcases hnb : normalizeDate b with _ | _ | _ | _ | _ | _ | tb | _ | _ <;>
        simp only [compareValues, hna, hnb] <;>
        first
        | (exfalso
           exact hnd ⟨(normalizeDate_isDate a).mp ⟨ta, hna⟩,
             (normalizeDate_isDate b).mp ⟨tb, hnb⟩⟩)
        | (rcases hop with h | h | h | h <;> subst h <;> simp [hguard])
  · intro n s hds hnan
    have hparse : parseISO s = none := by
      rcases hp : parseISO s with _ | t
      · rfl
      · simp [isDateLike, hp] at hds
    by_cases hn : ((0 : ℚ) < n ∧ n ≤ maxTime) <;>
      constructor <;>
        simp [evaluate, evalRule_gt_def, resolveOperand_lit_def, finishResolve,
          getValueFromPath_emptyObj, compareValues, normalizeDate, hparse,
          jsGT, jsLT, jsLess, toNumV, hnan, Value.truthy, Value.isNumOrStr,
          pureOk, bindOk, hn]

/-- Witness for C5 amended: a non-orderable object operand yields false,
and gt between a number and a non-numeric string yields false in both
directions. -/
theorem c5_amended_witness :
    compareValues (.vObj []) (.vNum 1) ">" = false
    ∧ evaluate (.gt (.lit (.vNum 5)) (.lit (.vStr "abc"))) = .ok false
    ∧ evaluate (.gt (.lit (.vStr "abc")) (.lit (.vNum 5))) = .ok false :=
  ⟨c5_amended.1 (.vObj []) (.vNum 1) ">" (by decide) (Or.inl rfl) (Or.inl rfl),
   (c5_amended.2.1 5 "abc" rfl rfl).1,
   (c5_amended.2.1 5 "abc" rfl rfl).2⟩


/-- Computation rule: resolveArgs on a cons steps through resolveArg. -/
theorem resolveArgs_cons (a : Value) (rest : List Value) :
    resolveArgs (a :: rest)
      = (do
          let o ← resolveArg a
          let os ← resolveArgs rest
          pure (o :: os)) := by
  rw [resolveArgs]
  rfl

/-- Computation rule: resolveArgs on the empty args array. -/
theorem resolveArgs_nil : resolveArgs [] = .ok [] := rfl

/-- Every serialized rule is an operator-and-args document. -/
theorem serializeRule_shape (t : Rule) :
    ∃ op args, serializeRule t = mkDoc op args := by
  cases t <;> rw [serializeRule] <;> exact ⟨_, _, rfl⟩

/-- A wire-safe plain value passes through the argument mapping. -/
theorem resolveArg_safeLit (v : Value) (h : wireSafeValue v = true) :
    resolveArg v = .ok (.lit v) := by
  cases v
  case vObj fs =>
    simp only [wireSafeValue, Bool.and_eq_true, Option.isNone_iff_eq_none] at h
    rw [resolveArg, if_neg (by simp), if_neg (by simp [hasOperatorKey, h.1])]
    rfl
  case vStr s =>
    have hs : s ≠ serializedSelfSymbol := of_decide_eq_true h
    rw [resolveArg, if_neg (by simpa using hs),
      if_neg (by simp [hasOperatorKey])]
    rfl
  case vDate t => simp [wireSafeValue] at h
  all_goals
    rw [resolveArg, if_neg (by simp), if_neg (by simp [hasOperatorKey])]
    rfl

/-- A document that deserializes to a rule resolves to a node argument. -/
theorem resolveArg_doc (op : String) (args : List Value) (t : Rule)
    (hd : deserialize (mkDoc op args) = .ok (.rule t)) :
    resolveArg (mkDoc op args) = .ok (.node t) := by
  rw [resolveArg, if_neg (by simp [mkDoc]), if_pos (show hasOperatorKey (mkDoc op args) = true from rfl), hd]
  rfl

/-- Deserializing a document whose operator resolves to a registered
constructor builds the rule from the resolved arguments. -/
theorem deserialize_mkDoc_found (op : String) (k : OpKey) (args : List Value)
    (hk : lookupOperator op = .found k) (os : List Operand)
    (hargs : resolveArgs args = .ok os) :
    deserialize (mkDoc op args) = .ok (.rule (buildRule k os)) := by
  rw [mkDoc, deserialize, hk, hargs]
  rfl

/-- Size-bounded round trip of the serializer on wire-safe trees, proved
by induction on the size bound: deserializing a serialized wire-safe tree,
subtree or operand list rebuilds it exactly. -/
theorem roundtrip_bnd (n : Nat) :
    (∀ t : Rule, sizeOf t < n → wireSafeRule t = true →
      deserialize (serializeRule t) = .ok (.rule t))
    ∧ (∀ o : Operand, sizeOf o < n → wireSafeOperand o = true →
      resolveArg (serializeOperand o) = .ok o)
    ∧ (∀ args : List Operand, sizeOf args < n → wireSafeList args = true →
      resolveArgs (serializeList args) = .ok args) := by
  induction n with
  | zero =>
    exact ⟨fun t hsz => absurd hsz (Nat.not_lt_zero _),
      fun o hsz => absurd hsz (Nat.not_lt_zero _),
      fun a hsz => absurd hsz (Nat.not_lt_zero _)⟩
  | succ n ih =>
    obtain ⟨ihr, iho, ihl⟩ := ih
    have ihnode : ∀ t : Rule, sizeOf t < n → wireSafeRule t = true →
        resolveArg (serializeRule t) = .ok (.node t) := by
      intro t hsz h
      obtain ⟨op, args, hshape⟩ := serializeRule_shape t
      rw [hshape]
      exact resolveArg_doc op args t (by rw [← hshape] ; exact ihr t hsz h)
    refine ⟨?_, ?_, ?_⟩
    · intro t hsz h
      cases t with
      | eq l r =>
        simp only [wireSafeRule, Bool.and_eq_true] at h
        have hsl : sizeOf l < n := by simp at hsz ; omega
        have hsr : sizeOf r < n := by simp at hsz ; omega
        rw [serializeRule]
        exact deserialize_mkDoc_found "eq" .kEq [serializeOperand l, serializeOperand r] rfl [l, r]
          (by simp only [resolveArgs_cons, iho l hsl h.1, iho r hsr h.2,
                resolveArgs_nil, bindOk, pureOk])
      | ne l r =>
        simp only [wireSafeRule, Bool.and_eq_true] at h
        have hsl : sizeOf l < n := by simp at hsz ; omega
        have hsr : sizeOf r < n := by simp at hsz ; omega
        rw [serializeRule]
        exact deserialize_mkDoc_found "ne" .kNe [serializeOperand l, serializeOperand r] rfl [l, r]
          (by simp only [resolveArgs_cons, iho l hsl h.1, iho r hsr h.2,
                resolveArgs_nil, bindOk, pureOk])
      | gt l r =>
        simp only [wireSafeRule, Bool.and_eq_true] at h
        have hsl : sizeOf l < n := by simp at hsz ; omega
        have hsr : sizeOf r < n := by simp at hsz ; omega
        rw [serializeRule]
        exact deserialize_mkDoc_found "gt" .kGt [serializeOperand l, serializeOperand r] rfl [l, r]
          (by simp only [resolveArgs_cons, iho l hsl h.1, iho r hsr h.2,
                resolveArgs_nil, bindOk, pureOk])
      | gte l r =>
        simp only [wireSafeRule, Bool.and_eq_true] at h
        have hsl : sizeOf l < n := by simp at hsz ; omega
        have hsr : sizeOf r < n := by simp at hsz ; omega
        rw [serializeRule]
        exact deserialize_mkDoc_found "gte" .kGte [serializeOperand l, serializeOperand r] rfl [l, r]
          (by simp only [resolveArgs_cons, iho l hsl h.1, iho r hsr h.2,
                resolveArgs_nil, bindOk, pureOk])
      | lt l r =>
        simp only [wireSafeRule, Bool.and_eq_true] at h
        have hsl : sizeOf l < n := by simp at hsz ; omega
        have hsr : sizeOf r < n := by simp at hsz ; omega
        rw [serializeRule]
        exact deserialize_mkDoc_found "lt" .kLt [serializeOperand l, serializeOperand r] rfl [l, r]
          (by simp only [resolveArgs_cons, iho l hsl h.1, iho r hsr h.2,
                resolveArgs_nil, bindOk, pureOk])
      | lte l r =>
        simp only [wireSafeRule, Bool.and_eq_true] at h
        have hsl : sizeOf l < n := by simp at hsz ; omega
        have hsr : sizeOf r < n := by simp at hsz ; omega
        rw [serializeRule]
        exact deserialize_mkDoc_found "lte" .kLte [serializeOperand l, serializeOperand r] rfl [l, r]
          (by simp only [resolveArgs_cons, iho l hsl h.1, iho r hsr h.2,
                resolveArgs_nil, bindOk, pureOk])
      | and args =>
        simp only [wireSafeRule] at h
        have hs : sizeOf args < n := by simp at hsz ; omega
        rw [serializeRule]
        exact deserialize_mkDoc_found "and" .kAnd (serializeList args) rfl args (ihl args hs h)
      | or args =>
        simp only [wireSafeRule] at h
        have hs : sizeOf args < n := by simp at hsz ; omega
        rw [serializeRule]
        exact deserialize_mkDoc_found "or" .kOr (serializeList args) rfl args (ihl args hs h)
      | not o =>
        simp only [wireSafeRule] at h
        have hs : sizeOf o < n := by simp at hsz ; omega
        rw [serializeRule]
        exact deserialize_mkDoc_found "not" .kNot [serializeOperand o] rfl [o]
          (by simp only [resolveArgs_cons, iho o hs h, resolveArgs_nil,
                bindOk, pureOk])
      | inOp v list =>
        simp only [wireSafeRule, Bool.and_eq_true] at h
        obtain ⟨hv, hlist⟩ := h
        have hsv : sizeOf v < n := by simp at hsz ; omega
        rcases list with lv | lt2
        · rcases lv with _ | _ | _ | _ | _ | _ | _ | xs | _ <;> try simp at hlist
          rw [serializeRule]
          exact deserialize_mkDoc_found "in" .kIn [serializeOperand v, serializeRaw (.lit (.vArr xs))] rfl [v, .lit (.vArr xs)]
            (by simp only [serializeRaw, resolveArgs_cons, iho v hsv hv,
                  resolveArg_safeLit (Value.vArr xs) rfl, resolveArgs_nil, bindOk,
                  pureOk])
        · simp at hlist
      | notIn v list =>
        simp only [wireSafeRule, Bool.and_eq_true] at h
        obtain ⟨hv, hlist⟩ := h
        have hsv : sizeOf v < n := by simp at hsz ; omega
        rcases list with lv | lt2
        · rcases lv with _ | _ | _ | _ | _ | _ | _ | xs | _ <;> try simp at hlist
          rw [serializeRule]
          exact deserialize_mkDoc_found "notIn" .kNotIn [serializeOperand v, serializeRaw (.lit (.vArr xs))] rfl [v, .lit (.vArr xs)]
            (by simp only [serializeRaw, resolveArgs_cons, iho v hsv hv,
                  resolveArg_safeLit (Value.vArr xs) rfl, resolveArgs_nil, bindOk,
                  pureOk])
        · simp at hlist
      | any path cond =>
        rcases path with pv | pt
        · cases pv
          case vStr ps =>
            rcases cond with cv | c
            · have h2 : (decide (ps ≠ serializedSelfSymbol) && false) = true := h
              simp at h2
            · have h2 : (decide (ps ≠ serializedSelfSymbol) && wireSafeRule c) = true := h
              simp only [Bool.and_eq_true] at h2
              have hsc : sizeOf c < n := by simp at hsz ; omega
              rw [serializeRule]
              exact deserialize_mkDoc_found "any" .kAny [serializeRaw (.lit (.vStr ps)), serializeRaw (.node c)] rfl [.lit (.vStr ps), .node c]
                (by simp only [serializeRaw, resolveArgs_cons,
                      resolveArg_safeLit (Value.vStr ps) h2.1, ihnode c hsc h2.2,
                      resolveArgs_nil, bindOk, pureOk])
          all_goals
            rcases cond with cv | c <;>
              · have hx : (false : Bool) = true := h
                exact absurd hx (by simp)
        · rcases cond with cv | c <;>
            · have hx : (false : Bool) = true := h
              exact absurd hx (by simp)
      | all path cond =>
        rcases path with pv | pt
        · cases pv
          case vStr ps =>
            rcases cond with cv | c
            · have h2 : (decide (ps ≠ serializedSelfSymbol) && false) = true := h
              simp at h2
            · have h2 : (decide (ps ≠ serializedSelfSymbol) && wireSafeRule c) = true := h
              simp only [Bool.and_eq_true] at h2
              have hsc : sizeOf c < n := by simp at hsz ; omega
              rw [serializeRule]
              exact deserialize_mkDoc_found "all" .kAll [serializeRaw (.lit (.vStr ps)), serializeRaw (.node c)] rfl [.lit (.vStr ps), .node c]
                (by simp only [serializeRaw, resolveArgs_cons,
                      resolveArg_safeLit (Value.vStr ps) h2.1, ihnode c hsc h2.2,
                      resolveArgs_nil, bindOk, pureOk])
          all_goals
            rcases cond with cv | c <;>
              · have hx : (false : Bool) = true := h
                exact absurd hx (by simp)
        · rcases cond with cv | c <;>
            · have hx : (false : Bool) = true := h
              exact absurd hx (by simp)
      | none path cond =>
        rcases path with pv | pt
        · cases pv
          case vStr ps =>
            rcases cond with cv | c
            · have h2 : (decide (ps ≠ serializedSelfSymbol) && false) = true := h
              simp at h2
            · have h2 : (decide (ps ≠ serializedSelfSymbol) && wireSafeRule c) = true := h
              simp only [Bool.and_eq_true] at h2
              have hsc : sizeOf c < n := by simp at hsz ; omega
              rw [serializeRule]
              exact deserialize_mkDoc_found "none" .kNone [serializeRaw (.lit (.vStr ps)), serializeRaw (.node c)] rfl [.lit (.vStr ps), .node c]
                (by simp only [serializeRaw, resolveArgs_cons,
                      resolveArg_safeLit (Value.vStr ps) h2.1, ihnode c hsc h2.2,
                      resolveArgs_nil, bindOk, pureOk])
          all_goals
            rcases cond with cv | c <;>
              · have hx : (false : Bool) = true := h
                exact absurd hx (by simp)
        · rcases cond with cv | c <;>
            · have hx : (false : Bool) = true := h
              exact absurd hx (by simp)
    · intro o hsz h
      cases o with
      | lit v =>
        have hv : wireSafeValue v = true := h
        cases v with
        | vDate t => simp [wireSafeValue] at hv
        | vUndef => exact resolveArg_safeLit _ hv
        | vNull => exact resolveArg_safeLit _ hv
        | vBool b => exact resolveArg_safeLit _ hv
        | vNum q => exact resolveArg_safeLit _ hv
        | vStr s2 => exact resolveArg_safeLit _ hv
        | vSym => exact resolveArg_safeLit _ hv
        | vArr xs => exact resolveArg_safeLit _ hv
        | vObj fs => exact resolveArg_safeLit _ hv
      | node t =>
        have hst : sizeOf t < n := by simp at hsz ; omega
        rw [serializeOperand]
        exact ihnode t hst h
    · intro args hsz h
      cases args with
      | nil => rfl
      | cons o rest =>
        simp only [wireSafeList, Bool.and_eq_true] at h
        have hso : sizeOf o < n := by simp at hsz ; omega
        have hsr : sizeOf rest < n := by simp at hsz ; omega
        rw [serializeList, resolveArgs_cons, iho o hso h.1, ihl rest hsr h.2]
        rfl

/-- Round trip of the serializer on wire-safe trees: deserializing the
serialized document rebuilds the same tree. -/
theorem roundtrip_rule (t : Rule) (h : wireSafeRule t = true) :
    deserialize (serializeRule t) = .ok (.rule t) :=
  (roundtrip_bnd (sizeOf t + 1)).1 t (Nat.lt_succ_self _) h

/-- Claim C1 counterexample: the tree gt(new Date("2023-01-15"), "!")
evaluates to false, but serialization turns the Date operand into its ISO
string, and the round-tripped tree compares two strings lexicographically
and evaluates to true on the empty context. -/
theorem c1_counterexample :
    evaluate (.gt (.lit (.vDate 1673740800000)) (.lit (.vStr "!"))) = .ok false
    ∧ deserialize (serializeRule
        (.gt (.lit (.vDate 1673740800000)) (.lit (.vStr "!"))))
        = .ok (.rule (.gt (.lit (.vStr "2023-01-15T00:00:00.000Z"))
            (.lit (.vStr "!"))))
    ∧ evaluate (.gt (.lit (.vStr "2023-01-15T00:00:00.000Z")) (.lit (.vStr "!")))
        = .ok true :=
  ⟨rfl, rfl, rfl⟩

/-- Claim C1 amended: for every constructible tree none of whose operands
is a Date object, the reserved token string, or an object with an
operator or toJSON key (wire-safe trees, which include trees containing
the self sentinel), deserialize(serialize(T)) rebuilds T itself, hence
evaluates identically on every context. -/
theorem c1_amended (t : Rule) (h : wireSafeRule t = true) :
    ∃ t2, deserialize (serializeRule t) = .ok (.rule t2)
      ∧ ∀ ctx : Value, evalRule t2 ctx = evalRule t ctx :=
  ⟨t, roundtrip_rule t h, fun _ => rfl⟩

/-- Witness for C1 amended at a sample tree with nesting, a quantifier
and the self sentinel. -/
theorem c1_amended_witness :
    wireSafeRule sampleRule = true
    ∧ ∃ t2, deserialize (serializeRule sampleRule) = .ok (.rule t2)
        ∧ ∀ ctx : Value, evalRule t2 ctx = evalRule sampleRule ctx :=
  ⟨rfl, c1_amended sampleRule rfl⟩

end Verdict
